import Mathlib

/-!
Verification of the MCP sampling example repository (`learn-mcp-sampling`).

The repository contains a Go MCP server (`mcp-implementations/cmd/enhanced_server`)
exposing an `analyze_file` tool that pushes sampling requests to a connected
client, and a Go MCP client whose `AnthropicSamplingHandler.CreateMessage`
answers those requests via the Anthropic HTTP API.  The request/response
correlation core described by the specification (session lifecycle, pending
request table, push channel, envelope codec) lives outside the files shipped
under `src/` (it is provided by the `mcp-go` library and by the repository's
reference implementations that are not part of the snapshot); those parts are
modelled here directly from the specification text, as marked by their doc
comments.  Everything else is a shallow embedding of the Go source.
-/

/-! ## Byte-level helpers shared by server and client embeddings -/

/-- Standard base64 alphabet used by Go's `base64.StdEncoding`. -/
def base64Alphabet : List Char :=
  "ABCDEFGHIJKLMNOPQRSTUVWXYZabcdefghijklmnopqrstuvwxyz0123456789+/".data

/-- Character at index `n` of the standard base64 alphabet. -/
def b64Char (n : Nat) : Char := base64Alphabet.getD n 'A'

/-- Core of `base64.StdEncoding.EncodeToString`: three input bytes become four
alphabet characters; a final group of one or two bytes is padded with `=`. -/
def base64Chunks : List Nat → List Char
  | b0 :: b1 :: b2 :: rest =>
    let n := b0 * 65536 + b1 * 256 + b2
    b64Char (n / 262144) :: b64Char (n / 4096 % 64) :: b64Char (n / 64 % 64) ::
      b64Char (n % 64) :: base64Chunks rest
  | [b0, b1] =>
    let n := b0 * 65536 + b1 * 256
    [b64Char (n / 262144), b64Char (n / 4096 % 64), b64Char (n / 64 % 64), '=']
  | [b0] =>
    let n := b0 * 65536
    [b64Char (n / 262144), b64Char (n / 4096 % 64), '=', '=']
  | [] => []

/-- Embedding of Go `base64.StdEncoding.EncodeToString` over a byte list. -/
def base64Encode (bs : List Nat) : String := String.mk (base64Chunks bs)

/-- Embedding of Go `strings.HasPrefix` (all compared prefixes in the source
are ASCII, so character-level prefix comparison coincides with Go's
byte-level one). -/
def strStartsWith (s pre : String) : Bool := pre.data.isPrefixOf s.data

/-! ## Shared MCP data types (`mcp.Content`, sampling request/result)

These mirror the `mcp-go` types as the repository uses them: the content
values the repository constructs and consumes are exactly `mcp.TextContent`
and `mcp.ImageContent`; the spec's "opaque binary-as-text" variant is a
`TextContent` whose body wraps a base64 payload. -/

/-- Tagged content union (`mcp.TextContent` / `mcp.ImageContent`). -/
inductive MCPContent where
  | text (body : String)
  | image (data : String) (mimeType : String)
deriving DecidableEq, Repr

/-- Message role (`mcp.RoleUser` / `mcp.RoleAssistant`). -/
inductive Role where
  | user
  | assistant
deriving DecidableEq, Repr

/-- Embedding of `mcp.SamplingMessage`. -/
structure SamplingMessage where
  role : Role
  content : MCPContent
deriving DecidableEq, Repr

/-- Embedding of `mcp.CreateMessageParams` (the fields the repository sets and
reads).  Go's `Temperature float64` is modelled as a rational. -/
structure CreateMessageRequest where
  messages : List SamplingMessage
  systemPrompt : String
  maxTokens : Nat
  temperature : ℚ
deriving DecidableEq, Repr

/-- Embedding of `mcp.CreateMessageResult` (role, content, model label,
stop-reason tag). -/
structure CreateMessageResult where
  role : Role
  content : MCPContent
  model : String
  stopReason : String
deriving DecidableEq, Repr

/-! ## Server side: the `analyze_file` tool handler
(`mcp-implementations/cmd/enhanced_server/main.go`) -/

/-- MIME defaulting in `analyze_file` (lines 136-139): the result of
`mime.TypeByExtension`, with the empty string replaced by
`application/octet-stream`. -/
def effectiveMimeType (lookedUp : String) : String :=
  if lookedUp = "" then "application/octet-stream" else lookedUp

/-- Text-branch condition of `analyze_file` (line 164):
`strings.HasPrefix(mimeType, "text/") || ext == ".md" || ext == ".txt" ||
ext == ".json" || ext == ".xml" || ext == ".csv"`. -/
def isTextual (mimeType ext : String) : Bool :=
  strStartsWith mimeType "text/" || ext == ".md" || ext == ".txt" ||
    ext == ".json" || ext == ".xml" || ext == ".csv"

/-- Body of the binary-file fallback text (line 185). -/
def binaryWrapper (mimeType b64 : String) : String :=
  "This is a binary file (" ++ mimeType ++ ") encoded in base64:\n\n" ++ b64

/-- Content-selection logic of `analyze_file` (lines 164-188).  `mimeType` is
the already-defaulted MIME type, `ext` the lower-cased file extension,
`fileText` the Go string view of the file bytes, `fileBytes` the raw bytes. -/
def contentForLLM (mimeType ext fileText : String) (fileBytes : List Nat) : MCPContent :=
  if isTextual mimeType ext then
    MCPContent.text fileText
  else if strStartsWith mimeType "image/" then
    MCPContent.image (base64Encode fileBytes) mimeType
  else
    MCPContent.text (binaryWrapper mimeType (base64Encode fileBytes))

/-- Sampling request built by `analyze_file` (lines 190-203): a single user
message carrying the selected content, the assembled system prompt,
`MaxTokens: 2000` and `Temperature: 0.3`. -/
def samplingRequest (content : MCPContent) (systemPrompt : String) : CreateMessageRequest :=
  { messages := [⟨Role.user, content⟩]
    systemPrompt := systemPrompt
    maxTokens := 2000
    temperature := 3 / 10 }

/-- Claim C5 as stated: the payload variant is chosen by the file's MIME type
alone — text variant for `text/`-typed files, image variant for `image/`-typed
files, and the opaque binary-as-text variant for every other file. -/
def mimeChoiceClaim (lookedUp ext fileText : String) (fileBytes : List Nat) : Prop :=
  (strStartsWith (effectiveMimeType lookedUp) "text/" = true →
    contentForLLM (effectiveMimeType lookedUp) ext fileText fileBytes =
      MCPContent.text fileText) ∧
  (strStartsWith (effectiveMimeType lookedUp) "text/" = false →
    strStartsWith (effectiveMimeType lookedUp) "image/" = true →
    contentForLLM (effectiveMimeType lookedUp) ext fileText fileBytes =
      MCPContent.image (base64Encode fileBytes) (effectiveMimeType lookedUp)) ∧
  (strStartsWith (effectiveMimeType lookedUp) "text/" = false →
    strStartsWith (effectiveMimeType lookedUp) "image/" = false →
    contentForLLM (effectiveMimeType lookedUp) ext fileText fileBytes =
      MCPContent.text (binaryWrapper (effectiveMimeType lookedUp) (base64Encode fileBytes)))

/-- Amended C5: the text variant is chosen for files whose MIME type starts
with `text/` or whose extension is one of `.md`, `.txt`, `.json`, `.xml`,
`.csv`; the image variant for `image/`-typed files; the opaque binary-as-text
variant for every other file. -/
def mimeChoiceAmended (lookedUp ext fileText : String) (fileBytes : List Nat) : Prop :=
  (isTextual (effectiveMimeType lookedUp) ext = true →
    contentForLLM (effectiveMimeType lookedUp) ext fileText fileBytes =
      MCPContent.text fileText) ∧
  (isTextual (effectiveMimeType lookedUp) ext = false →
    strStartsWith (effectiveMimeType lookedUp) "image/" = true →
    contentForLLM (effectiveMimeType lookedUp) ext fileText fileBytes =
      MCPContent.image (base64Encode fileBytes) (effectiveMimeType lookedUp)) ∧
  (isTextual (effectiveMimeType lookedUp) ext = false →
    strStartsWith (effectiveMimeType lookedUp) "image/" = false →
    contentForLLM (effectiveMimeType lookedUp) ext fileText fileBytes =
      MCPContent.text (binaryWrapper (effectiveMimeType lookedUp) (base64Encode fileBytes)))

/-- Filesystem observations made by one `analyze_file` invocation:
the two `filepath.Abs` results (an `Except` error models Go's error return),
whether `os.Stat` reported the file as not existing, and the `os.ReadFile`
result (text view and raw bytes on success). -/
structure FileAccess where
  absFile : Except String String
  absDir : Except String String
  statNotExist : Bool
  readResult : Except String (String × List Nat)

/-- Outcome of the file-access front half of `analyze_file`; each failure
constructor records the exact tool-result text the handler returns (all
failure results carry `IsError: true`). -/
inductive AccessResult where
  | pathError (text : String)
  | denied (text : String)
  | notFound (text : String)
  | readFailed (text : String)
  | fileContent (fileText : String) (fileBytes : List Nat)
deriving DecidableEq, Repr

/-- File-access front half of `analyze_file` (lines 65-132), in source order:
resolve the file path, resolve the directory path, check the string-prefix
containment, check existence, then read.  The boolean records whether
`os.ReadFile` was invoked. -/
def fileAccessCheck (fa : FileAccess) (filename : String) : AccessResult × Bool :=
  match fa.absFile with
  | Except.error e => (AccessResult.pathError ("Error resolving file path: " ++ e), false)
  | Except.ok absFilePath =>
    match fa.absDir with
    | Except.error e => (AccessResult.pathError ("Error resolving directory path: " ++ e), false)
    | Except.ok absDirPath =>
      if !strStartsWith absFilePath absDirPath then
        (AccessResult.denied "Access denied: File must be within the files directory", false)
      else if fa.statNotExist then
        (AccessResult.notFound ("File not found: " ++ filename), false)
      else
        match fa.readResult with
        | Except.error e => (AccessResult.readFailed ("Error reading file: " ++ e), true)
        | Except.ok content => (AccessResult.fileContent content.1 content.2, true)

/-- Embedding of `mcp.CallToolResult` as the repository builds it: a single
text content plus the `IsError` flag. -/
structure CallToolResult where
  isError : Bool
  text : String
deriving DecidableEq, Repr

/-- Tail of the `analyze_file` handler (lines 211-249): how the result of
`RequestSampling` is turned into the tool reply.  `fallbackFmt` models Go's
`fmt.Sprintf("%v", result.Content)` for non-text content. -/
def analyzeToolReply (fallbackFmt : MCPContent → String)
    (filename mimeType analysisKind : String)
    (sampling : Except String CreateMessageResult) : CallToolResult :=
  match sampling with
  | Except.error e => ⟨true, "Error requesting sampling: " ++ e⟩
  | Except.ok r =>
    let responseText :=
      match r.content with
      | MCPContent.text t => t
      | other => fallbackFmt other
    ⟨false,
      "File Analysis Results\n=====================\nFile: " ++ filename ++
        "\nType: " ++ mimeType ++ "\nAnalysis: " ++ analysisKind ++
        "\nModel: " ++ r.model ++ "\n\n" ++ responseText⟩

/-! ## Client side: `AnthropicSamplingHandler.CreateMessage`
(`mcp-implementations/cmd/enhanced_client/main.go`, lines 449-567) -/

/-- One content block of the Anthropic wire format: a text block, or an image
block with a base64 source carrying a media type. -/
inductive AnthropicContentBlock where
  | text (body : String)
  | image (mediaType : String) (data : String)
deriving DecidableEq, Repr

/-- Embedding of the client's `Message` struct. -/
structure AnthropicMessage where
  role : String
  content : List AnthropicContentBlock
deriving DecidableEq, Repr

/-- Embedding of the client's `AnthropicRequest` struct. -/
structure AnthropicRequest where
  model : String
  maxTokens : Nat
  messages : List AnthropicMessage
  system : String
  temperature : ℚ
deriving DecidableEq, Repr

/-- One element of the `content` array of an Anthropic API response. -/
structure AnthropicRespContent where
  ctype : String
  ctext : String
deriving DecidableEq, Repr

/-- Embedding of the client's `AnthropicResponse` struct (the fields the
handler reads; the diagnostic fields `id`, `role`, `usage`, `stop_sequence`
are only logged and are omitted). -/
structure AnthropicResponse where
  content : List AnthropicRespContent
  model : String
  stopReason : String
deriving DecidableEq, Repr

/-- Content conversion in `CreateMessage` (lines 461-485): MCP text becomes a
one-element text block list, MCP image becomes a one-element image block list
with a base64 source. -/
def convertContent : MCPContent → List AnthropicContentBlock
  | MCPContent.text t => [AnthropicContentBlock.text t]
  | MCPContent.image data mime => [AnthropicContentBlock.image mime data]

/-- Role conversion in `CreateMessage` (lines 487-490): default `user`,
`assistant` for `mcp.RoleAssistant`. -/
def convertRole : Role → String
  | Role.assistant => "assistant"
  | Role.user => "user"

/-- Per-message conversion in `CreateMessage`. -/
def convertMessage (m : SamplingMessage) : AnthropicMessage :=
  ⟨convertRole m.role, convertContent m.content⟩

/-- The Anthropic API request `CreateMessage` builds (lines 499-505): fixed
model name, and the incoming request's max tokens, converted messages, system
prompt and temperature. -/
def mkAnthropicRequest (req : CreateMessageRequest) : AnthropicRequest :=
  ⟨"claude-3-5-sonnet-20241022", req.maxTokens, req.messages.map convertMessage,
    req.systemPrompt, req.temperature⟩

/-- Observable behaviour of the HTTP backend for one call: transport failure
of `HTTPClient.Do`, or an HTTP response with a status code and a body that
either decodes to an `AnthropicResponse` or fails to decode.  (Building and
marshalling the request cannot fail for these value types and is modelled as
total.) -/
inductive BackendOutcome where
  | netErr (msg : String)
  | httpResp (status : Nat) (body : Except String AnthropicResponse)

/-- Result of one `CreateMessage` invocation, mirroring Go's
`(*mcp.CreateMessageResult, error)` pair, plus two bookkeeping fields:
whether the handler progressed past the empty-messages guard into the HTTP
phase, and the Anthropic request it built (if any). -/
structure HandlerOutput where
  result : Option CreateMessageResult
  errMsg : Option String
  backendCalled : Bool
  sentRequest : Option AnthropicRequest
deriving DecidableEq, Repr

/-- Embedding of `AnthropicSamplingHandler.CreateMessage` (lines 449-567),
parameterised by the HTTP backend's behaviour. -/
def createMessage (backend : AnthropicRequest → BackendOutcome)
    (req : CreateMessageRequest) : HandlerOutput :=
  if req.messages.length = 0 then
    ⟨none, some "no messages provided", false, none⟩
  else
    let anthropicReq := mkAnthropicRequest req
    match backend anthropicReq with
    | BackendOutcome.netErr m =>
      ⟨none, some ("failed to send request: " ++ m), true, some anthropicReq⟩
    | BackendOutcome.httpResp status body =>
      if status ≠ 200 then
        ⟨none, some ("API request failed with status " ++ toString status), true,
          some anthropicReq⟩
      else
        match body with
        | Except.error e =>
          ⟨none, some ("failed to decode response: " ++ e), true, some anthropicReq⟩
        | Except.ok resp =>
          let responseText :=
            match resp.content with
            | [] => ""
            | c :: _ => c.ctext
          ⟨some ⟨Role.assistant, MCPContent.text responseText, resp.model, resp.stopReason⟩,
            none, true, some anthropicReq⟩

/-! ## Envelope codec

The repository's wire codec (JSON marshalling of push frames, done inside the
`mcp-go` library and in the reference implementations that are not part of the
`src/` snapshot) is modelled from the specification, section 6: one JSON
object per frame, `id`, `method`, and `params` holding `content` (a tagged
`"text"`/`"image"` object), `systemPrompt`, `maxTokens`, `temperature`. -/

/-- Modelled from the spec: JSON value tree for the wire representation of
push frames; the repository's envelope codec itself is not under `src/`. -/
inductive JVal where
  | jstr (s : String)
  | jnum (q : ℚ)
  | jobj (fields : List (String × JVal))

/-- Field lookup in a JSON object (first binding wins). -/
def jlookup (key : String) : List (String × JVal) → Option JVal
  | [] => none
  | (k, v) :: rest => if k = key then some v else jlookup key rest

/-- Read a JSON string value. -/
def asString : Option JVal → Option String
  | some (JVal.jstr s) => some s
  | _ => none

/-- Read a JSON number as a natural number. -/
def asNat : Option JVal → Option Nat
  | some (JVal.jnum q) => if q.den = 1 ∧ 0 ≤ q.num then some q.num.toNat else none
  | _ => none

/-- Read a JSON number as a rational. -/
def asRat : Option JVal → Option ℚ
  | some (JVal.jnum q) => some q
  | _ => none

/-- Modelled from the spec: a Request Envelope — identifier, method name,
structured payload, numeric parameters, optional system instruction (spec
section 3); the envelope type itself is part of the correlation core missing
from `src/`. -/
structure RequestEnvelope where
  id : Nat
  method : String
  content : MCPContent
  systemPrompt : String
  maxTokens : Nat
  temperature : ℚ
deriving DecidableEq, Repr

/-- Modelled from the spec: encoding of the content union onto the wire, one
tagged JSON object per variant (spec section 6); the codec is missing from
`src/`. -/
def encodeContent : MCPContent → JVal
  | MCPContent.text t => JVal.jobj [("type", JVal.jstr "text"), ("text", JVal.jstr t)]
  | MCPContent.image data mime =>
    JVal.jobj [("type", JVal.jstr "image"), ("data", JVal.jstr data),
      ("mimeType", JVal.jstr mime)]

/-- Modelled from the spec: decoding of the content union from the wire,
dispatching on the `type` discriminant field (spec sections 6 and 9); the
codec is missing from `src/`. -/
def decodeContent : JVal → Option MCPContent
  | JVal.jobj fields =>
    match asString (jlookup "type" fields) with
    | some "text" => (asString (jlookup "text" fields)).map MCPContent.text
    | some "image" =>
      match asString (jlookup "data" fields), asString (jlookup "mimeType" fields) with
      | some d, some m => some (MCPContent.image d m)
      | _, _ => none
    | _ => none
  | _ => none

/-- Modelled from the spec: encoding of a full Request Envelope as one framed
JSON object (spec section 6); the codec is missing from `src/`. -/
def encodeEnvelope (e : RequestEnvelope) : JVal :=
  JVal.jobj
    [("id", JVal.jnum e.id),
     ("method", JVal.jstr e.method),
     ("params", JVal.jobj
       [("content", encodeContent e.content),
        ("systemPrompt", JVal.jstr e.systemPrompt),
        ("maxTokens", JVal.jnum e.maxTokens),
        ("temperature", JVal.jnum e.temperature)])]

/-- Modelled from the spec: decoding of a full Request Envelope from one
framed JSON object (spec section 6); the codec is missing from `src/`. -/
def decodeEnvelope : JVal → Option RequestEnvelope
  | JVal.jobj fields =>
    match asNat (jlookup "id" fields), asString (jlookup "method" fields),
        jlookup "params" fields with
    | some i, some method, some (JVal.jobj pf) =>
      match (jlookup "content" pf).bind (fun j => decodeContent j),
          asString (jlookup "systemPrompt" pf), asNat (jlookup "maxTokens" pf),
          asRat (jlookup "temperature" pf) with
      | some c, some sp, some mt, some temp => some ⟨i, method, c, sp, mt, temp⟩
      | _, _, _, _ => none
    | _, _, _ => none
  | _ => none

/-! ## Correlation layer: sessions, pending request table, timeouts

The correlation core (session capability gating, the Pending Request Table,
`send` with timeout, the response path) is implemented by the `mcp-go`
library and the repository's reference implementations, none of which are
under `src/`.  It is modelled from the specification, sections 3-5 and 7, as
a state machine over timestamped events of one session. -/

/-- Modelled from the spec: the definitive outcomes a caller of `send` can
receive — content (with model label and stop reason) or one of the failure
kinds of the error taxonomy (spec sections 6 and 7); the `send`
implementation is missing from `src/`. -/
inductive SendOutcome where
  | content (body model stopReason : String)
  | timedOut
  | sessionClosed
  | capabilityNotSupported
  | handlerError (msg : String)
deriving DecidableEq, Repr

/-- Modelled from the spec: one recorded resolution — which request
identifier was resolved, with which outcome, at which time (spec section 3,
Pending Entry consumption); the correlation core is missing from `src/`. -/
structure Resolution where
  id : Nat
  outcome : SendOutcome
  time : Nat
deriving DecidableEq, Repr

/-- Modelled from the spec: the observable events driving one session's
correlation layer — a `send` call, arrival of a success or error response,
the firing of a send's timeout timer, and session closure (spec sections
4.3, 4.4 and 5); the correlation core is missing from `src/`. -/
inductive CorrEvent where
  | send (id : Nat) (tmo : Nat) (t : Nat)
  | respOk (id : Nat) (body model stopReason : String) (t : Nat)
  | respErr (id : Nat) (msg : String) (t : Nat)
  | timerFire (id : Nat) (t : Nat)
  | close (t : Nat)
deriving DecidableEq, Repr

/-- Timestamp of a correlation event. -/
def CorrEvent.time : CorrEvent → Nat
  | CorrEvent.send _ _ t => t
  | CorrEvent.respOk _ _ _ _ t => t
  | CorrEvent.respErr _ _ t => t
  | CorrEvent.timerFire _ t => t
  | CorrEvent.close t => t

/-- Modelled from the spec: initiator-side state of one session — the peer's
negotiated push capability, the closed flag, the Pending Request Table (a
map from request identifier to deadline), the identifiers sent so far, the
log of completed resolutions, the log of sends failed before transmission,
and the stale-response diagnostic counter (spec sections 3 and 4.3); the
correlation core is missing from `src/`. -/
structure CorrState where
  caps : Bool
  closed : Bool
  pending : List (Nat × Nat)
  sent : List Nat
  resolved : List Resolution
  immediateFailures : List Resolution
  dropped : Nat
deriving DecidableEq, Repr

/-- Fresh session state after capability negotiation declared `caps`. -/
def initState (caps : Bool) : CorrState :=
  ⟨caps, false, [], [], [], [], 0⟩

/-- Identifiers currently in the Pending Request Table. -/
def CorrState.pendingIds (s : CorrState) : List Nat := s.pending.map Prod.fst

/-- Identifiers already resolved (slot fulfilled). -/
def CorrState.resolvedIds (s : CorrState) : List Nat := s.resolved.map Resolution.id

/-- Resolve the pending entry for `id`: remove it from the table and record
the outcome (one-shot completion slot fulfilment). -/
def resolvePending (s : CorrState) (id : Nat) (o : SendOutcome) (t : Nat) : CorrState :=
  { s with pending := s.pending.filter (fun p => p.1 != id)
           resolved := ⟨id, o, t⟩ :: s.resolved }

/-- Modelled from the spec: the correlation layer's reaction to one event
(spec sections 4.1, 4.3 and 5) — a `send` on a session without the push
capability fails immediately without touching the table; a `send` on a
closed session fails with `SessionClosed`; an accepted `send` registers a
pending entry with deadline `t + tmo`; a response for a pending identifier
fulfils the slot exactly once and removes the entry, otherwise it is
discarded silently (diagnostic counter only); a timer firing for a
still-pending identifier resolves it with `Timeout`; closing the session
resolves every outstanding entry with `SessionClosed` and empties the table.
The correlation core is missing from `src/`. -/
def corrStep (s : CorrState) (e : CorrEvent) : CorrState :=
  match e with
  | CorrEvent.send id tmo t =>
    if !s.caps then
      { s with immediateFailures :=
          ⟨id, SendOutcome.capabilityNotSupported, t⟩ :: s.immediateFailures }
    else if s.closed then
      { s with immediateFailures :=
          ⟨id, SendOutcome.sessionClosed, t⟩ :: s.immediateFailures }
    else
      { s with pending := (id, t + tmo) :: s.pending, sent := id :: s.sent }
  | CorrEvent.respOk id body model stopReason t =>
    if id ∈ s.pendingIds then
      resolvePending s id (SendOutcome.content body model stopReason) t
    else
      { s with dropped := s.dropped + 1 }
  | CorrEvent.respErr id msg t =>
    if id ∈ s.pendingIds then
      resolvePending s id (SendOutcome.handlerError msg) t
    else
      { s with dropped := s.dropped + 1 }
  | CorrEvent.timerFire id t =>
    if id ∈ s.pendingIds then
      resolvePending s id SendOutcome.timedOut t
    else
      s
  | CorrEvent.close t =>
    { s with closed := true
             pending := []
             resolved :=
               s.pending.map (fun p => ⟨p.1, SendOutcome.sessionClosed, t⟩) ++ s.resolved }

/-- Run the correlation layer over a list of events. -/
def corrRun (s : CorrState) : List CorrEvent → CorrState
  | [] => s
  | e :: es => corrRun (corrStep s e) es

/-- Freshness guard for one event: a `send` must use an identifier not sent
before in this session (spec section 3: identifiers are caller-assigned and
collision-free); every other event is unconstrained. -/
def sendFresh (s : CorrState) : CorrEvent → Bool
  | CorrEvent.send id _ _ => !decide (id ∈ s.sent)
  | _ => true

/-- Validity of an event list from a given state: every `send` uses a fresh,
caller-assigned, collision-free identifier, as the spec's data model
requires of request identifiers (spec section 3). -/
def validFrom (s : CorrState) : List CorrEvent → Bool
  | [] => true
  | e :: es => sendFresh s e && validFrom (corrStep s e) es

/-- Event timestamps are nondecreasing along the list. -/
def timesMono (evs : List CorrEvent) : Prop :=
  evs.Pairwise (fun a b => a.time ≤ b.time)

/-- The pending-table invariant of spec section 3: an identifier is in the
table iff it was sent and not yet resolved; no two pending entries share an
identifier; no identifier is resolved twice; resolved identifiers were
sent. -/
def PendingInv (s : CorrState) : Prop :=
  s.pendingIds.Nodup ∧
  s.resolvedIds.Nodup ∧
  (∀ id, id ∈ s.pendingIds ↔ (id ∈ s.sent ∧ id ∉ s.resolvedIds)) ∧
  (∀ id, id ∈ s.resolvedIds → id ∈ s.sent)

/-! ## Helper lemmas -/

theorem decodeContent_encodeContent (c : MCPContent) :
    decodeContent (encodeContent c) = some c := by
  cases c <;> rfl

theorem asNat_natCast (n : Nat) : asNat (some (JVal.jnum (n : ℚ))) = some n := by
  simp [asNat]

theorem mem_map_fst_filter_ne (l : List (Nat × Nat)) (id j : Nat) :
    j ∈ (l.filter (fun p => p.1 != id)).map Prod.fst ↔ j ∈ l.map Prod.fst ∧ j ≠ id := by
  simp only [List.mem_map, List.mem_filter, bne_iff_ne]
  constructor
  · rintro ⟨a, ⟨ha, hne⟩, rfl⟩
    exact ⟨⟨a, ha, rfl⟩, hne⟩
  · rintro ⟨⟨a, ha, rfl⟩, hne⟩
    exact ⟨a, ⟨ha, hne⟩, rfl⟩

theorem pendingInv_congr (s s' : CorrState) (hp : s'.pending = s.pending)
    (hr : s'.resolved = s.resolved) (hs : s'.sent = s.sent)
    (h : PendingInv s) : PendingInv s' := by
  unfold PendingInv CorrState.pendingIds CorrState.resolvedIds at h ⊢
  rw [hp, hr, hs]
  exact h

theorem resolvePending_pendingIds (s : CorrState) (id : Nat) (o : SendOutcome)
    (t j : Nat) :
    (j ∈ (resolvePending s id o t).pendingIds) ↔ (j ∈ s.pendingIds ∧ j ≠ id) := by
  simp only [resolvePending, CorrState.pendingIds]
  exact mem_map_fst_filter_ne s.pending id j

theorem resolvePending_resolvedIds (s : CorrState) (id : Nat) (o : SendOutcome)
    (t j : Nat) :
    (j ∈ (resolvePending s id o t).resolvedIds) ↔ (j = id ∨ j ∈ s.resolvedIds) := by
  simp [resolvePending, CorrState.resolvedIds]

theorem pendingInv_resolvePending (s : CorrState) (id : Nat) (o : SendOutcome) (t : Nat)
    (hInv : PendingInv s) (hmem : id ∈ s.pendingIds) :
    PendingInv (resolvePending s id o t) := by
  obtain ⟨hP, hR, hIff, hSub⟩ := hInv
  have hidR : id ∉ s.resolvedIds := ((hIff id).1 hmem).2
  have hidSent : id ∈ s.sent := ((hIff id).1 hmem).1
  refine ⟨?_, ?_, ?_, ?_⟩
  · simpa [resolvePending, CorrState.pendingIds] using
      List.Nodup.sublist (List.Sublist.map Prod.fst (List.filter_sublist s.pending)) hP
  · have h1 : ∀ x ∈ s.resolved, x.id ≠ id := by
      intro x hx heq
      exact hidR (List.mem_map.mpr ⟨x, hx, heq⟩)
    simpa [resolvePending, CorrState.resolvedIds, List.nodup_cons] using ⟨h1, hR⟩
  · intro j
    have hres := resolvePending_resolvedIds s id o t j
    have hsent : (resolvePending s id o t).sent = s.sent := rfl
    rw [resolvePending_pendingIds, hsent]
    constructor
    · rintro ⟨hjP, hjne⟩
      have hj := (hIff j).1 hjP
      refine ⟨hj.1, fun hmemR => ?_⟩
      rcases hres.1 hmemR with h | h
      · exact hjne h
      · exact hj.2 h
    · rintro ⟨hjS, hjnot⟩
      have hjne : j ≠ id := fun h => hjnot (hres.2 (Or.inl h))
      have hjR : j ∉ s.resolvedIds := fun h => hjnot (hres.2 (Or.inr h))
      exact ⟨(hIff j).2 ⟨hjS, hjR⟩, hjne⟩
  · intro j hj
    have hres := resolvePending_resolvedIds s id o t j
    rcases hres.1 hj with h | h
    · exact h ▸ hidSent
    · exact hSub j h

theorem pendingInv_corrStep (s : CorrState) (e : CorrEvent) (hInv : PendingInv s)
    (hfresh : ∀ id tmo t, e = CorrEvent.send id tmo t → id ∉ s.sent) :
    PendingInv (corrStep s e) := by
  obtain ⟨hP, hR, hIff, hSub⟩ := hInv
  cases e with
  | send id tmo t =>
    have hf : id ∉ s.sent := hfresh id tmo t rfl
    cases hc : s.caps with
    | false =>
      refine pendingInv_congr s _ ?_ ?_ ?_ ⟨hP, hR, hIff, hSub⟩ <;> simp [corrStep, hc]
    | true =>
      cases hcl : s.closed with
      | true =>
        refine pendingInv_congr s _ ?_ ?_ ?_ ⟨hP, hR, hIff, hSub⟩ <;> simp [corrStep, hc, hcl]
      | false =>
        have hidP : id ∉ s.pendingIds := fun h => hf ((hIff id).1 h).1
        have hidR : id ∉ s.resolvedIds := fun h => hf (hSub id h)
        have hstep : corrStep s (CorrEvent.send id tmo t) =
            { s with pending := (id, t + tmo) :: s.pending, sent := id :: s.sent } := by
          simp [corrStep, hc, hcl]
        rw [hstep]
        refine ⟨?_, ?_, ?_, ?_⟩
        · have hpn : CorrState.pendingIds
              { s with pending := (id, t + tmo) :: s.pending, sent := id :: s.sent } =
              id :: s.pendingIds := rfl
          rw [hpn, List.nodup_cons]
          exact ⟨hidP, hP⟩
        · exact hR
        · intro j
          have hpn : CorrState.pendingIds
              { s with pending := (id, t + tmo) :: s.pending, sent := id :: s.sent } =
              id :: s.pendingIds := rfl
          rw [hpn]
          show j ∈ id :: s.pendingIds ↔ j ∈ id :: s.sent ∧ j ∉ s.resolvedIds
          rw [List.mem_cons, List.mem_cons]
          constructor
          · rintro (rfl | hj)
            · exact ⟨Or.inl rfl, hidR⟩
            · have hj2 := (hIff j).1 hj
              exact ⟨Or.inr hj2.1, hj2.2⟩
          · rintro ⟨rfl | hjS, hjR⟩
            · exact Or.inl rfl
            · exact Or.inr ((hIff j).2 ⟨hjS, hjR⟩)
        · intro j hj
          exact List.mem_cons_of_mem id (hSub j hj)
  | respOk id body model stopReason t =>
    by_cases hmem : id ∈ s.pendingIds
    · have hstep : corrStep s (CorrEvent.respOk id body model stopReason t) =
          resolvePending s id (SendOutcome.content body model stopReason) t := by
        simp [corrStep, hmem]
      rw [hstep]
      exact pendingInv_resolvePending s id _ t ⟨hP, hR, hIff, hSub⟩ hmem
    · refine pendingInv_congr s _ ?_ ?_ ?_ ⟨hP, hR, hIff, hSub⟩ <;> simp [corrStep, hmem]
  | respErr id msg t =>
    by_cases hmem : id ∈ s.pendingIds
    · have hstep : corrStep s (CorrEvent.respErr id msg t) =
          resolvePending s id (SendOutcome.handlerError msg) t := by
        simp [corrStep, hmem]
      rw [hstep]
      exact pendingInv_resolvePending s id _ t ⟨hP, hR, hIff, hSub⟩ hmem
    · refine pendingInv_congr s _ ?_ ?_ ?_ ⟨hP, hR, hIff, hSub⟩ <;> simp [corrStep, hmem]
  | timerFire id t =>
    by_cases hmem : id ∈ s.pendingIds
    · have hstep : corrStep s (CorrEvent.timerFire id t) =
          resolvePending s id SendOutcome.timedOut t := by
        simp [corrStep, hmem]
      rw [hstep]
      exact pendingInv_resolvePending s id _ t ⟨hP, hR, hIff, hSub⟩ hmem
    · refine pendingInv_congr s _ ?_ ?_ ?_ ⟨hP, hR, hIff, hSub⟩ <;> simp [corrStep, hmem]
  | close t =>
    have hmm : ((s.pending.map
        (fun p => (⟨p.1, SendOutcome.sessionClosed, t⟩ : Resolution))).map Resolution.id) =
        s.pendingIds := by
      rw [List.map_map]; rfl
    have hRIds : CorrState.resolvedIds (corrStep s (CorrEvent.close t)) =
        s.pendingIds ++ s.resolvedIds := by
      show ((s.pending.map (fun p => (⟨p.1, SendOutcome.sessionClosed, t⟩ : Resolution))) ++
        s.resolved).map Resolution.id = _
      rw [List.map_append, hmm]
      rfl
    refine ⟨?_, ?_, ?_, ?_⟩
    · exact List.nodup_nil
    · rw [hRIds, List.nodup_append]
      exact ⟨hP, hR, fun j hjP hjR => ((hIff j).1 hjP).2 hjR⟩
    · intro j
      constructor
      · intro h
        exact absurd h (List.not_mem_nil j)
      · rintro ⟨hjS, hjnot⟩
        rw [hRIds, List.mem_append] at hjnot
        exfalso
        have hjR : j ∉ s.resolvedIds := fun h => hjnot (Or.inr h)
        exact hjnot (Or.inl ((hIff j).2 ⟨hjS, hjR⟩))
    · intro j hj
      rw [hRIds, List.mem_append] at hj
      rcases hj with h | h
      · exact ((hIff j).1 h).1
      · exact hSub j h

theorem corrRun_append (s : CorrState) (l1 l2 : List CorrEvent) :
    corrRun s (l1 ++ l2) = corrRun (corrRun s l1) l2 := by
  induction l1 generalizing s with
  | nil => rfl
  | cons e es ih => simp [corrRun, ih]

theorem validFrom_append (s : CorrState) (l1 l2 : List CorrEvent) :
    validFrom s (l1 ++ l2) = (validFrom s l1 && validFrom (corrRun s l1) l2) := by
  induction l1 generalizing s with
  | nil => simp [validFrom, corrRun]
  | cons e es ih => simp [validFrom, corrRun, ih, Bool.and_assoc]

theorem pendingInv_corrRun (evs : List CorrEvent) (s : CorrState)
    (h : PendingInv s) (hv : validFrom s evs = true) :
    PendingInv (corrRun s evs) := by
  induction evs generalizing s with
  | nil => exact h
  | cons e es ih =>
    rw [validFrom, Bool.and_eq_true] at hv
    refine ih (corrStep s e) (pendingInv_corrStep s e h ?_) hv.2
    intro id tmo t he
    subst he
    simpa [sendFresh] using hv.1

theorem pendingInv_initState (caps : Bool) : PendingInv (initState caps) := by
  refine ⟨List.nodup_nil, List.nodup_nil, ?_, ?_⟩
  · intro j
    simp [initState, CorrState.pendingIds, CorrState.resolvedIds]
  · intro j hj
    simp [initState, CorrState.resolvedIds] at hj

theorem corrStep_resolved_subset (s : CorrState) (e : CorrEvent) (r : Resolution)
    (hr : r ∈ s.resolved) : r ∈ (corrStep s e).resolved := by
  cases e with
  | send id tmo t =>
    cases hc : s.caps <;> cases hcl : s.closed <;> simp [corrStep, hc, hcl, hr]
  | respOk id body model stopReason t =>
    by_cases hmem : id ∈ s.pendingIds <;> simp [corrStep, hmem, resolvePending, hr]
  | respErr id msg t =>
    by_cases hmem : id ∈ s.pendingIds <;> simp [corrStep, hmem, resolvePending, hr]
  | timerFire id t =>
    by_cases hmem : id ∈ s.pendingIds <;> simp [corrStep, hmem, resolvePending, hr]
  | close t => simp [corrStep, hr]

theorem corrRun_resolved_subset (evs : List CorrEvent) (s : CorrState) (r : Resolution)
    (hr : r ∈ s.resolved) : r ∈ (corrRun s evs).resolved := by
  induction evs generalizing s with
  | nil => exact hr
  | cons e es ih => exact ih (corrStep s e) (corrStep_resolved_subset s e r hr)

theorem corrStep_immediateFailures_subset (s : CorrState) (e : CorrEvent) (r : Resolution)
    (hr : r ∈ s.immediateFailures) : r ∈ (corrStep s e).immediateFailures := by
  cases e with
  | send id tmo t =>
    cases hc : s.caps <;> cases hcl : s.closed <;> simp [corrStep, hc, hcl, hr]
  | respOk id body model stopReason t =>
    by_cases hmem : id ∈ s.pendingIds <;> simp [corrStep, hmem, resolvePending, hr]
  | respErr id msg t =>
    by_cases hmem : id ∈ s.pendingIds <;> simp [corrStep, hmem, resolvePending, hr]
  | timerFire id t =>
    by_cases hmem : id ∈ s.pendingIds <;> simp [corrStep, hmem, resolvePending, hr]
  | close t => simp [corrStep, hr]

theorem corrRun_immediateFailures_subset (evs : List CorrEvent) (s : CorrState)
    (r : Resolution) (hr : r ∈ s.immediateFailures) :
    r ∈ (corrRun s evs).immediateFailures := by
  induction evs generalizing s with
  | nil => exact hr
  | cons e es ih => exact ih (corrStep s e) (corrStep_immediateFailures_subset s e r hr)

theorem corrStep_sent_subset (s : CorrState) (e : CorrEvent) (id : Nat)
    (hr : id ∈ s.sent) : id ∈ (corrStep s e).sent := by
  cases e with
  | send id2 tmo t =>
    cases hc : s.caps <;> cases hcl : s.closed <;>
      simp [corrStep, hc, hcl, hr, List.mem_cons_of_mem]
  | respOk id2 body model stopReason t =>
    by_cases hmem : id2 ∈ s.pendingIds <;> simp [corrStep, hmem, resolvePending, hr]
  | respErr id2 msg t =>
    by_cases hmem : id2 ∈ s.pendingIds <;> simp [corrStep, hmem, resolvePending, hr]
  | timerFire id2 t =>
    by_cases hmem : id2 ∈ s.pendingIds <;> simp [corrStep, hmem, resolvePending, hr]
  | close t => simp [corrStep, hr]

theorem corrRun_sent_subset (evs : List CorrEvent) (s : CorrState) (id : Nat)
    (hr : id ∈ s.sent) : id ∈ (corrRun s evs).sent := by
  induction evs generalizing s with
  | nil => exact hr
  | cons e es ih => exact ih (corrStep s e) (corrStep_sent_subset s e id hr)

theorem corrStep_resolved_cases (s : CorrState) (e : CorrEvent) (r : Resolution)
    (hr : r ∈ (corrStep s e).resolved) : r ∈ s.resolved ∨ r.time = e.time := by
  cases e with
  | send id tmo t =>
    cases hc : s.caps <;> cases hcl : s.closed <;>
      simp [corrStep, hc, hcl] at hr <;> exact Or.inl hr
  | respOk id body model stopReason t =>
    by_cases hmem : id ∈ s.pendingIds <;> simp [corrStep, hmem, resolvePending] at hr
    · rcases hr with h | h
      · right; subst h; rfl
      · exact Or.inl h
    · exact Or.inl hr
  | respErr id msg t =>
    by_cases hmem : id ∈ s.pendingIds <;> simp [corrStep, hmem, resolvePending] at hr
    · rcases hr with h | h
      · right; subst h; rfl
      · exact Or.inl h
    · exact Or.inl hr
  | timerFire id t =>
    by_cases hmem : id ∈ s.pendingIds <;> simp [corrStep, hmem, resolvePending] at hr
    · rcases hr with h | h
      · right; subst h; rfl
      · exact Or.inl h
    · exact Or.inl hr
  | close t =>
    simp [corrStep] at hr
    rcases hr with ⟨a, b, h⟩ | h
    · right; subst h; rfl
    · exact Or.inl h

theorem corrRun_resolved_time (evs : List CorrEvent) (s : CorrState) (T : Nat)
    (hbound : ∀ e ∈ evs, e.time ≤ T) (r : Resolution)
    (hr : r ∈ (corrRun s evs).resolved) : r ∈ s.resolved ∨ r.time ≤ T := by
  induction evs generalizing s with
  | nil => exact Or.inl hr
  | cons e es ih =>
    have hbound' : ∀ e2 ∈ es, CorrEvent.time e2 ≤ T := fun e2 he2 =>
      hbound e2 (List.mem_cons_of_mem e he2)
    rcases ih (corrStep s e) hbound' hr with h | h
    · rcases corrStep_resolved_cases s e r h with h2 | h2
      · exact Or.inl h2
      · exact Or.inr (h2 ▸ hbound e (List.mem_cons_self e es))
    · exact Or.inr h

theorem corrRun_noCaps (evs : List CorrEvent) (s : CorrState)
    (hc : s.caps = false) (hp : s.pending = []) (hs : s.sent = []) :
    (corrRun s evs).sent = [] ∧ (corrRun s evs).pending = [] := by
  induction evs generalizing s with
  | nil => exact ⟨hs, hp⟩
  | cons e es ih =>
    refine ih (corrStep s e) ?_ ?_ ?_ <;> cases e <;>
      simp [corrStep, hc, hp, hs, CorrState.pendingIds, resolvePending]

theorem corrRun_cons (s : CorrState) (e : CorrEvent) (es : List CorrEvent) :
    corrRun s (e :: es) = corrRun (corrStep s e) es := rfl

theorem corrStep_timerFire_mem (s : CorrState) (id t : Nat) (hmem : id ∈ s.pendingIds) :
    corrStep s (CorrEvent.timerFire id t) = resolvePending s id SendOutcome.timedOut t := by
  simp [corrStep, hmem]

theorem corrStep_respOk_notMem (s : CorrState) (id : Nat) (body model stopReason : String)
    (t : Nat) (hmem : id ∉ s.pendingIds) :
    corrStep s (CorrEvent.respOk id body model stopReason t) =
      { s with dropped := s.dropped + 1 } := by
  simp [corrStep, hmem]

theorem corrStep_respErr_mem (s : CorrState) (id : Nat) (msg : String) (t : Nat)
    (hmem : id ∈ s.pendingIds) :
    corrStep s (CorrEvent.respErr id msg t) =
      resolvePending s id (SendOutcome.handlerError msg) t := by
  simp [corrStep, hmem]

theorem c2_core (s0 : CorrState) (mid post : List CorrEvent) (id tmo t0 : Nat)
    (hfresh : id ∉ s0.sent) (hInv0 : PendingInv s0)
    (hvMid : validFrom (corrStep s0 (CorrEvent.send id tmo t0)) mid = true)
    (hmidT : ∀ e ∈ mid, CorrEvent.time e ≤ t0 + tmo) :
    ∃ r : Resolution,
      (r ∈ (corrRun (corrStep (corrRun (corrStep s0 (CorrEvent.send id tmo t0)) mid)
          (CorrEvent.timerFire id (t0 + tmo))) post).resolved ∨
       r ∈ (corrRun (corrStep (corrRun (corrStep s0 (CorrEvent.send id tmo t0)) mid)
          (CorrEvent.timerFire id (t0 + tmo))) post).immediateFailures) ∧
      r.id = id ∧ r.time ≤ t0 + tmo := by
  cases hc : s0.caps with
  | false =>
    have hs1 : corrStep s0 (CorrEvent.send id tmo t0) =
        { s0 with immediateFailures :=
            ⟨id, SendOutcome.capabilityNotSupported, t0⟩ :: s0.immediateFailures } := by
      simp [corrStep, hc]
    refine ⟨⟨id, SendOutcome.capabilityNotSupported, t0⟩, Or.inr ?_, rfl, Nat.le_add_right t0 tmo⟩
    apply corrRun_immediateFailures_subset post
    apply corrStep_immediateFailures_subset
    apply corrRun_immediateFailures_subset mid
    rw [hs1]
    exact List.mem_cons_self _ _
  | true =>
    cases hcl : s0.closed with
    | true =>
      have hs1 : corrStep s0 (CorrEvent.send id tmo t0) =
          { s0 with immediateFailures :=
              ⟨id, SendOutcome.sessionClosed, t0⟩ :: s0.immediateFailures } := by
        simp [corrStep, hc, hcl]
      refine ⟨⟨id, SendOutcome.sessionClosed, t0⟩, Or.inr ?_, rfl, Nat.le_add_right t0 tmo⟩
      apply corrRun_immediateFailures_subset post
      apply corrStep_immediateFailures_subset
      apply corrRun_immediateFailures_subset mid
      rw [hs1]
      exact List.mem_cons_self _ _
    | false =>
      have hs1 : corrStep s0 (CorrEvent.send id tmo t0) =
          { s0 with pending := (id, t0 + tmo) :: s0.pending, sent := id :: s0.sent } := by
        simp [corrStep, hc, hcl]
      have hInv1 : PendingInv (corrStep s0 (CorrEvent.send id tmo t0)) :=
        pendingInv_corrStep s0 _ hInv0 (by
          intro id2 tmo2 t2 he
          cases he
          exact hfresh)
      have hidSent1 : id ∈ (corrStep s0 (CorrEvent.send id tmo t0)).sent := by
        rw [hs1]
        exact List.mem_cons_self _ _
      have hidSent2 :
          id ∈ (corrRun (corrStep s0 (CorrEvent.send id tmo t0)) mid).sent :=
        corrRun_sent_subset mid _ id hidSent1
      by_cases hmem :
          id ∈ (corrRun (corrStep s0 (CorrEvent.send id tmo t0)) mid).pendingIds
      · have hstep := corrStep_timerFire_mem
          (corrRun (corrStep s0 (CorrEvent.send id tmo t0)) mid) id (t0 + tmo) hmem
        refine ⟨⟨id, SendOutcome.timedOut, t0 + tmo⟩, Or.inl ?_, rfl, le_refl _⟩
        apply corrRun_resolved_subset post
        rw [hstep]
        exact List.mem_cons_self _ _
      · have hInv2 : PendingInv (corrRun (corrStep s0 (CorrEvent.send id tmo t0)) mid) :=
          pendingInv_corrRun mid _ hInv1 hvMid
        obtain ⟨-, -, hIff2, -⟩ := hInv2
        have hidR2 :
            id ∈ (corrRun (corrStep s0 (CorrEvent.send id tmo t0)) mid).resolvedIds := by
          by_contra hno
          exact hmem ((hIff2 id).2 ⟨hidSent2, hno⟩)
        obtain ⟨r, hrmem, hrid⟩ := List.mem_map.1 hidR2
        have htime : r ∈ (corrStep s0 (CorrEvent.send id tmo t0)).resolved ∨
            r.time ≤ t0 + tmo :=
          corrRun_resolved_time mid _ (t0 + tmo) hmidT r hrmem
        have hnot1 : r ∉ (corrStep s0 (CorrEvent.send id tmo t0)).resolved := by
          intro hin
          rw [hs1] at hin
          have hin0 : r ∈ s0.resolved := hin
          have hid0 : id ∈ s0.resolvedIds := List.mem_map.2 ⟨r, hin0, hrid⟩
          obtain ⟨-, -, -, hSub0⟩ := hInv0
          exact hfresh (hSub0 id hid0)
        rcases htime with h | h
        · exact absurd h hnot1
        · refine ⟨r, Or.inl ?_, hrid, h⟩
          apply corrRun_resolved_subset post
          exact corrStep_resolved_subset _ _ r hrmem

/-! ## Claim theorems -/

/-- Claim C1: after any valid event trace, a request identifier is in the
Pending Request Table iff the corresponding request has been sent and no
response, timeout, or session closure has resolved it; no two pending
entries share an identifier; at most one resolution occurs per identifier
(the resolution log is duplicate-free); and a late response for an
identifier no longer pending is a no-op (only the diagnostic counter
changes), after which the pending entry is still absent. -/
theorem c1_pending_table_invariant (caps : Bool) (evs : List CorrEvent)
    (hv : validFrom (initState caps) evs = true) :
    PendingInv (corrRun (initState caps) evs) ∧
    (∀ id body model stopReason t,
      id ∉ (corrRun (initState caps) evs).pendingIds →
      corrStep (corrRun (initState caps) evs)
          (CorrEvent.respOk id body model stopReason t) =
        { corrRun (initState caps) evs with
            dropped := (corrRun (initState caps) evs).dropped + 1 } ∧
      id ∉ (corrStep (corrRun (initState caps) evs)
          (CorrEvent.respOk id body model stopReason t)).pendingIds) := by
  constructor
  · exact pendingInv_corrRun evs (initState caps) (pendingInv_initState caps) hv
  · intro id body model stopReason t hid
    have hstep := corrStep_respOk_notMem (corrRun (initState caps) evs)
      id body model stopReason t hid
    refine ⟨hstep, ?_⟩
    rw [hstep]
    exact hid

/-- Witness for C1 at a concrete two-event trace. -/
theorem c1_witness :
    validFrom (initState true)
      [CorrEvent.send 1 5 0, CorrEvent.respOk 1 "ok" "m1" "endTurn" 3] = true ∧
    PendingInv (corrRun (initState true)
      [CorrEvent.send 1 5 0, CorrEvent.respOk 1 "ok" "m1" "endTurn" 3]) :=
  ⟨by decide,
   (c1_pending_table_invariant true
     [CorrEvent.send 1 5 0, CorrEvent.respOk 1 "ok" "m1" "endTurn" 3] (by decide)).1⟩

/-- Claim C2: for every `send` with timeout `tmo` issued at time `t0` in a
valid, time-monotone trace whose timer fires at `t0 + tmo`, the caller has a
definitive outcome (a resolution or an immediate failure) recorded no later
than `t0 + tmo`; a timer firing while the identifier is still pending
removes the entry and records a `Timeout` failure; and a response for an
identifier no longer pending is discarded silently, changing only the
diagnostic counter. -/
theorem c2_send_timeout_discipline (caps : Bool) (pre mid post : List CorrEvent)
    (id tmo t0 : Nat)
    (hv : validFrom (initState caps)
      (pre ++ CorrEvent.send id tmo t0 ::
        (mid ++ CorrEvent.timerFire id (t0 + tmo) :: post)) = true)
    (hm : timesMono
      (pre ++ CorrEvent.send id tmo t0 ::
        (mid ++ CorrEvent.timerFire id (t0 + tmo) :: post))) :
    (∃ r : Resolution,
      (r ∈ (corrRun (initState caps)
          (pre ++ CorrEvent.send id tmo t0 ::
            (mid ++ CorrEvent.timerFire id (t0 + tmo) :: post))).resolved ∨
       r ∈ (corrRun (initState caps)
          (pre ++ CorrEvent.send id tmo t0 ::
            (mid ++ CorrEvent.timerFire id (t0 + tmo) :: post))).immediateFailures) ∧
      r.id = id ∧ r.time ≤ t0 + tmo) ∧
    (∀ s id2 t, id2 ∈ s.pendingIds →
      (corrStep s (CorrEvent.timerFire id2 t)).resolved =
        ⟨id2, SendOutcome.timedOut, t⟩ :: s.resolved ∧
      id2 ∉ (corrStep s (CorrEvent.timerFire id2 t)).pendingIds) ∧
    (∀ s id2 body model stopReason t, id2 ∉ s.pendingIds →
      corrStep s (CorrEvent.respOk id2 body model stopReason t) =
        { s with dropped := s.dropped + 1 }) := by
  refine ⟨?_, ?_, ?_⟩
  · rw [validFrom_append, Bool.and_eq_true] at hv
    obtain ⟨hvPre, hvRest⟩ := hv
    rw [validFrom, Bool.and_eq_true] at hvRest
    obtain ⟨hFresh0, hvTail⟩ := hvRest
    rw [validFrom_append, Bool.and_eq_true] at hvTail
    obtain ⟨hvMid, -⟩ := hvTail
    have hfresh : id ∉ (corrRun (initState caps) pre).sent := by
      simpa [sendFresh] using hFresh0
    have hInv0 : PendingInv (corrRun (initState caps) pre) :=
      pendingInv_corrRun pre _ (pendingInv_initState caps) hvPre
    have hmidT : ∀ e ∈ mid, CorrEvent.time e ≤ t0 + tmo := by
      rw [timesMono, List.pairwise_append] at hm
      have h2 := hm.2.1
      rw [List.pairwise_cons] at h2
      have h3 := h2.2
      rw [List.pairwise_append] at h3
      intro e he
      exact h3.2.2 e he (CorrEvent.timerFire id (t0 + tmo)) (List.mem_cons_self _ _)
    have hrun : corrRun (initState caps)
        (pre ++ CorrEvent.send id tmo t0 ::
          (mid ++ CorrEvent.timerFire id (t0 + tmo) :: post)) =
        corrRun (corrStep (corrRun (corrStep (corrRun (initState caps) pre)
          (CorrEvent.send id tmo t0)) mid) (CorrEvent.timerFire id (t0 + tmo))) post := by
      rw [corrRun_append, corrRun_cons, corrRun_append, corrRun_cons]
    rw [hrun]
    exact c2_core (corrRun (initState caps) pre) mid post id tmo t0 hfresh hInv0 hvMid hmidT
  · intro s id2 t hmem
    rw [corrStep_timerFire_mem s id2 t hmem]
    refine ⟨rfl, fun hcon => ?_⟩
    exact ((resolvePending_pendingIds s id2 SendOutcome.timedOut t id2).1 hcon).2 rfl
  · intro s id2 body model stopReason t hmem
    exact corrStep_respOk_notMem s id2 body model stopReason t hmem

/-- Witness for C2: the spec's timeout scenario — `id = 42` sent with a
2-unit timeout at time 0, no response; the timer fires at time 2. -/
theorem c2_witness :
    validFrom (initState true)
      ([] ++ CorrEvent.send 42 2 0 :: ([] ++ CorrEvent.timerFire 42 2 :: [])) = true ∧
    timesMono ([] ++ CorrEvent.send 42 2 0 :: ([] ++ CorrEvent.timerFire 42 2 :: [])) ∧
    ∃ r : Resolution,
      (r ∈ (corrRun (initState true)
          ([] ++ CorrEvent.send 42 2 0 ::
            ([] ++ CorrEvent.timerFire 42 2 :: []))).resolved ∨
       r ∈ (corrRun (initState true)
          ([] ++ CorrEvent.send 42 2 0 ::
            ([] ++ CorrEvent.timerFire 42 2 :: []))).immediateFailures) ∧
      r.id = 42 ∧ r.time ≤ 0 + 2 :=
  ⟨by decide, by unfold timesMono; decide,
   (c2_send_timeout_discipline true [] [] [] 42 2 0 (by decide)
     (by unfold timesMono; decide)).1⟩

/-- Claim C3: a `send` on a session whose negotiated peer capabilities lack
the push capability fails immediately with `CapabilityNotSupported`: the
Pending Request Table and the sent log are untouched (the request is never
transmitted), only the immediate-failure log grows; moreover on a session
negotiated without the capability no trace ever transmits anything. -/
theorem c3_capability_gating (s : CorrState) (id tmo t : Nat) (h : s.caps = false) :
    corrStep s (CorrEvent.send id tmo t) =
      { s with immediateFailures :=
          ⟨id, SendOutcome.capabilityNotSupported, t⟩ :: s.immediateFailures } ∧
    (corrStep s (CorrEvent.send id tmo t)).pending = s.pending ∧
    (corrStep s (CorrEvent.send id tmo t)).sent = s.sent ∧
    (∀ evs, (corrRun (initState false) evs).sent = [] ∧
      (corrRun (initState false) evs).pending = []) := by
  have hstep : corrStep s (CorrEvent.send id tmo t) =
      { s with immediateFailures :=
          ⟨id, SendOutcome.capabilityNotSupported, t⟩ :: s.immediateFailures } := by
    simp [corrStep, h]
  refine ⟨hstep, by rw [hstep], by rw [hstep], ?_⟩
  intro evs
  exact corrRun_noCaps evs (initState false) rfl rfl rfl

/-- Witness for C3 on a freshly negotiated capability-less session. -/
theorem c3_witness :
    (initState false).caps = false ∧
    corrStep (initState false) (CorrEvent.send 7 10 1) =
      { initState false with immediateFailures :=
          ⟨7, SendOutcome.capabilityNotSupported, 1⟩ :: (initState false).immediateFailures } :=
  ⟨rfl, (c3_capability_gating (initState false) 7 10 1 rfl).1⟩

/-- Claim C4: for every sampling request and every backend behaviour, the
handler's output populates exactly one of the success result and the failure
message — never both and never neither; when the guard passes, the request
sent to the backend carries the converted structured payload, the numeric
parameters and the system instruction; and a decoded 200 response yields a
success result carrying the backend's model label and stop-reason tag. -/
theorem c4_handler_invocation (backend : AnthropicRequest → BackendOutcome)
    (req : CreateMessageRequest) :
    (((createMessage backend req).result.isSome = true ∧
        (createMessage backend req).errMsg = none) ∨
      ((createMessage backend req).result = none ∧
        (createMessage backend req).errMsg.isSome = true)) ∧
    (req.messages ≠ [] →
      (createMessage backend req).sentRequest = some (mkAnthropicRequest req) ∧
      (mkAnthropicRequest req).messages = req.messages.map convertMessage ∧
      (mkAnthropicRequest req).maxTokens = req.maxTokens ∧
      (mkAnthropicRequest req).temperature = req.temperature ∧
      (mkAnthropicRequest req).system = req.systemPrompt) ∧
    (∀ resp : AnthropicResponse, req.messages ≠ [] →
      backend (mkAnthropicRequest req) = BackendOutcome.httpResp 200 (Except.ok resp) →
      (createMessage backend req).result = some ⟨Role.assistant,
        MCPContent.text (match resp.content with | [] => "" | c :: _ => c.ctext),
        resp.model, resp.stopReason⟩) := by
  by_cases hlen : req.messages.length = 0
  · have hempty : req.messages = [] := List.length_eq_zero.1 hlen
    refine ⟨?_, ?_, ?_⟩
    · right
      constructor <;> simp [createMessage, hlen]
    · intro hne
      exact absurd hempty hne
    · intro resp hne
      exact absurd hempty hne
  · cases hb : backend (mkAnthropicRequest req) with
    | netErr m =>
      refine ⟨?_, ?_, ?_⟩
      · right
        constructor <;> simp [createMessage, hlen, hb]
      · intro hne
        exact ⟨by simp [createMessage, hlen, hb], rfl, rfl, rfl, rfl⟩
      · intro resp hne hcontra
        exact absurd hcontra (by simp)
    | httpResp status body =>
      by_cases hst : status = 200
      · subst hst
        cases body with
        | error e =>
          refine ⟨?_, ?_, ?_⟩
          · right
            constructor <;> simp [createMessage, hlen, hb]
          · intro hne
            exact ⟨by simp [createMessage, hlen, hb], rfl, rfl, rfl, rfl⟩
          · intro resp hne hcontra
            exact absurd hcontra (by simp)
        | ok resp0 =>
          refine ⟨?_, ?_, ?_⟩
          · left
            constructor <;> simp [createMessage, hlen, hb]
          · intro hne
            exact ⟨by simp [createMessage, hlen, hb], rfl, rfl, rfl, rfl⟩
          · intro resp hne hcontra
            have hresp : resp0 = resp := by
              injection hcontra with h1 h2
              injection h2
            subst hresp
            simp [createMessage, hlen, hb]
      · refine ⟨?_, ?_, ?_⟩
        · right
          constructor <;> simp [createMessage, hlen, hb, hst]
        · intro hne
          exact ⟨by simp [createMessage, hlen, hb, hst], rfl, rfl, rfl, rfl⟩
        · intro resp hne hcontra
          injection hcontra with h1 h2
          exact absurd h1 hst

/-- Witness for C4 on the request `analyze_file` builds and a backend that
answers 200 with one text block. -/
theorem c4_witness :
    (createMessage
        (fun _ => BackendOutcome.httpResp 200
          (Except.ok ⟨[⟨"text", "hello"⟩], "m1", "endTurn"⟩))
        (samplingRequest (MCPContent.text "doc") "sys")).result =
      some ⟨Role.assistant, MCPContent.text "hello", "m1", "endTurn"⟩ ∧
    (createMessage
        (fun _ => BackendOutcome.httpResp 200
          (Except.ok ⟨[⟨"text", "hello"⟩], "m1", "endTurn"⟩))
        (samplingRequest (MCPContent.text "doc") "sys")).errMsg = none ∧
    (createMessage
        (fun _ => BackendOutcome.httpResp 200
          (Except.ok ⟨[⟨"text", "hello"⟩], "m1", "endTurn"⟩))
        (samplingRequest (MCPContent.text "doc") "sys")).sentRequest =
      some (mkAnthropicRequest (samplingRequest (MCPContent.text "doc") "sys")) := by
  have h := c4_handler_invocation
    (fun _ => BackendOutcome.httpResp 200
      (Except.ok ⟨[⟨"text", "hello"⟩], "m1", "endTurn"⟩))
    (samplingRequest (MCPContent.text "doc") "sys")
  exact ⟨h.2.2 ⟨[⟨"text", "hello"⟩], "m1", "endTurn"⟩ (by decide) rfl, rfl,
    (h.2.1 (by decide)).1⟩

/-- Claim C5, counterexample: a `.json` file has MIME type `application/json`
(Go's built-in table), which is neither `text/`-typed nor `image/`-typed, so
the claim as stated requires the opaque binary-as-text variant; the code
instead selects the plain text variant via its extension list. -/
theorem c5_counterexample : ¬ mimeChoiceClaim "application/json" ".json" "a" [97] := by
  unfold mimeChoiceClaim
  decide

/-- Claim C5 as amended: the structured payload is always exactly one of the
tagged union's variants, with the text variant chosen for files whose MIME
type starts with `text/` or whose extension is one of `.md`, `.txt`,
`.json`, `.xml`, `.csv`, the image variant (carrying the image MIME type)
for `image/`-typed files, and the opaque binary-as-text variant
(base64-encoded with descriptive context) for every other file. -/
theorem c5_amended_mime_choice (lookedUp ext fileText : String) (fileBytes : List Nat) :
    mimeChoiceAmended lookedUp ext fileText fileBytes := by
  unfold mimeChoiceAmended
  refine ⟨?_, ?_, ?_⟩
  · intro h
    simp [contentForLLM, h]
  · intro h1 h2
    simp [contentForLLM, h1, h2]
  · intro h1 h2
    simp [contentForLLM, h1, h2]

/-- Witness for amended C5: the counterexample input itself, where the text
variant is chosen by the extension list. -/
theorem c5_witness :
    isTextual (effectiveMimeType "application/json") ".json" = true ∧
    contentForLLM (effectiveMimeType "application/json") ".json" "body" [97] =
      MCPContent.text "body" :=
  ⟨by decide, (c5_amended_mime_choice "application/json" ".json" "body" [97]).1 (by decide)⟩

/-- Claim C6: encoding a Request Envelope and decoding it yields the
identical structured payload for every content variant — text, image (data
and MIME type preserved), and opaque binary-as-text (a text payload wrapping
a base64 body, shown explicitly in the last conjunct). -/
theorem c6_envelope_roundtrip :
    (∀ c : MCPContent, decodeContent (encodeContent c) = some c) ∧
    (∀ e : RequestEnvelope, decodeEnvelope (encodeEnvelope e) = some e) ∧
    decodeContent (encodeContent (MCPContent.text
        (binaryWrapper "application/pdf" (base64Encode [1, 2, 3])))) =
      some (MCPContent.text (binaryWrapper "application/pdf" (base64Encode [1, 2, 3]))) := by
  refine ⟨decodeContent_encodeContent, ?_, decodeContent_encodeContent _⟩
  intro e
  cases e with
  | mk i method c sp mt temp =>
    simp [encodeEnvelope, decodeEnvelope, jlookup, asString, asRat, asNat_natCast,
      decodeContent_encodeContent]

/-- Claim C7: a failure of the sampling request is surfaced to the tool
caller as an error result carrying the failure message (never swallowed);
and on the initiator side an error response for a pending identifier
resolves exactly that caller's slot with a `HandlerError` carrying the
message, removing the pending entry. -/
theorem c7_handler_errors_surfaced :
    (∀ (fallbackFmt : MCPContent → String) (filename mimeType analysisKind e : String),
      analyzeToolReply fallbackFmt filename mimeType analysisKind (Except.error e) =
        ⟨true, "Error requesting sampling: " ++ e⟩) ∧
    (∀ (s : CorrState) (id : Nat) (msg : String) (t : Nat), id ∈ s.pendingIds →
      (corrStep s (CorrEvent.respErr id msg t)).resolved =
        ⟨id, SendOutcome.handlerError msg, t⟩ :: s.resolved ∧
      id ∉ (corrStep s (CorrEvent.respErr id msg t)).pendingIds) := by
  constructor
  · intro fallbackFmt filename mimeType analysisKind e
    rfl
  · intro s id msg t hmem
    rw [corrStep_respErr_mem s id msg t hmem]
    refine ⟨rfl, fun hcon => ?_⟩
    exact ((resolvePending_pendingIds s id (SendOutcome.handlerError msg) t id).1 hcon).2 rfl

/-- Witness for C7: a concrete failing sampling call and a concrete pending
request resolved by an error response. -/
theorem c7_witness :
    analyzeToolReply (fun _ => "") "f.md" "text/markdown" "summarize" (Except.error "boom") =
      ⟨true, "Error requesting sampling: boom"⟩ ∧
    (corrStep (corrStep (initState true) (CorrEvent.send 7 9 0))
        (CorrEvent.respErr 7 "bad" 3)).resolved =
      [⟨7, SendOutcome.handlerError "bad", 3⟩] := by
  have h := c7_handler_errors_surfaced
  refine ⟨h.1 (fun _ => "") "f.md" "text/markdown" "summarize" "boom", ?_⟩
  have h2 := (h.2 (corrStep (initState true) (CorrEvent.send 7 9 0)) 7 "bad" 3 (by decide)).1
  rw [h2]
  rfl

/-- Claim C8: every sampling request built by `analyze_file` carries the
numeric parameters of the data model — max tokens 2000 and temperature 0.3,
a value lying in the unit interval. -/
theorem c8_numeric_parameters (content : MCPContent) (systemPrompt : String) :
    (samplingRequest content systemPrompt).maxTokens = 2000 ∧
    (samplingRequest content systemPrompt).temperature = 3 / 10 ∧
    0 ≤ (samplingRequest content systemPrompt).temperature ∧
    (samplingRequest content systemPrompt).temperature ≤ 1 := by
  refine ⟨rfl, rfl, ?_, ?_⟩ <;> norm_num [samplingRequest]

/-- Claim C9: whenever the resolved absolute file path does not start with
the absolute files-directory path, `analyze_file` answers with the
"Access denied" error result without invoking the file read; and a read is
invoked only when the prefix check passed and the stat did not report the
file as missing. -/
theorem c9_path_guard (fa : FileAccess) (filename a d : String)
    (ha : fa.absFile = Except.ok a) (hd : fa.absDir = Except.ok d)
    (hp : strStartsWith a d = false) :
    fileAccessCheck fa filename =
      (AccessResult.denied "Access denied: File must be within the files directory",
        false) ∧
    (∀ (fa2 : FileAccess) (fn2 : String), (fileAccessCheck fa2 fn2).2 = true →
      ∃ a2 d2, fa2.absFile = Except.ok a2 ∧ fa2.absDir = Except.ok d2 ∧
        strStartsWith a2 d2 = true ∧ fa2.statNotExist = false) := by
  constructor
  · simp [fileAccessCheck, ha, hd, hp]
  · intro fa2 fn2 hread
    rcases habs : fa2.absFile with e | a2
    · exfalso
      simp [fileAccessCheck, habs] at hread
    · rcases hdir : fa2.absDir with e | d2
      · exfalso
        simp [fileAccessCheck, habs, hdir] at hread
      · cases hpre : strStartsWith a2 d2 with
        | false =>
          exfalso
          simp [fileAccessCheck, habs, hdir, hpre] at hread
        | true =>
          cases hstat : fa2.statNotExist with
          | true =>
            exfalso
            simp [fileAccessCheck, habs, hdir, hpre, hstat] at hread
          | false => exact ⟨a2, d2, rfl, rfl, hpre, rfl⟩

/-- Witness for C9 at a concrete out-of-directory path. -/
theorem c9_witness :
    strStartsWith "/etc/passwd" "/root/project/files" = false ∧
    fileAccessCheck
        ⟨Except.ok "/etc/passwd", Except.ok "/root/project/files", false,
          Except.ok ("", [])⟩ "x" =
      (AccessResult.denied "Access denied: File must be within the files directory",
        false) :=
  ⟨by decide,
   (c9_path_guard
     ⟨Except.ok "/etc/passwd", Except.ok "/root/project/files", false, Except.ok ("", [])⟩
     "x" "/etc/passwd" "/root/project/files" rfl rfl (by decide)).1⟩

/-- Claim C10: a sampling request with an empty message list makes
`CreateMessage` fail immediately with "no messages provided", with no
Anthropic request constructed and no backend interaction. -/
theorem c10_empty_messages_guard (backend : AnthropicRequest → BackendOutcome)
    (req : CreateMessageRequest) (h : req.messages = []) :
    createMessage backend req = ⟨none, some "no messages provided", false, none⟩ := by
  simp [createMessage, h]

/-- Witness for C10: a concrete empty-message request. -/
theorem c10_witness :
    createMessage (fun _ => BackendOutcome.netErr "down") ⟨[], "sys", 10, 0⟩ =
      ⟨none, some "no messages provided", false, none⟩ :=
  c10_empty_messages_guard (fun _ => BackendOutcome.netErr "down") ⟨[], "sys", 10, 0⟩ rfl
